import Mathlib

/-!
Verification of the RMG surface-reactor specification.

This development shallowly embeds the surface batch-reactor model exercised by
`rmgpy/solver/surfaceTest.py` and the reactor-engine contracts described in the
design specification (rate evaluator, residual function, analytic Jacobian,
rate-coefficient sensitivity, reactor driver), and proves or refutes the frozen
claims about them.

The reactor engine itself (`SurfaceReactor`, `residual`, `jacobian`,
`computeRateDerivative`, `advance`) is not part of the provided sources — only
the test harness is — so the engine components are modelled from the
specification text, as marked in each doc comment.  Exact rational arithmetic
stands in for IEEE doubles; machine-level rounding is not modelled.
-/

/-- A reaction, as constructed in the test harness
(`Reaction(reactants=..., products=...)`): reactant and product species are
given by index into the core-species list, with stoichiometric multiplicity
denoted by repetition (e.g. `H2 + 2X` is `[0, 1, 1]`). -/
structure SpecReaction where
  reactants : List Nat
  products : List Nat
deriving DecidableEq, Inhabited

/-- Net stoichiometric coefficient of species `i` in reaction `r`:
moles produced minus moles consumed per extent of reaction
(spec §4.1: `stoich(j,i) = (moles of i produced) − (moles of i consumed)`). -/
def stoich (r : SpecReaction) (i : Nat) : ℤ :=
  (r.products.count i : ℤ) - (r.reactants.count i : ℤ)

/-- The mass-action concentration/coverage product of a reaction side:
the product over the listed species indices of the corresponding state-vector
entries (spec §4.1, the `Π(reactant concentrations/coverages)^(stoich)` term). -/
def monomial (y : List ℚ) (idxs : List Nat) : ℚ :=
  (idxs.map fun s => y.getD s 0).prod

/-- Modelled from the spec: the Rate Evaluator's net rate of reaction `m`
(spec §4.1: `k_forward × Π(reactant conc) − k_reverse × Π(product conc)`,
the reverse term vanishing for an irreversible reaction, `kr = 0`).
The rate-coefficient values `kf`, `kr` come from the external kinetics
objects (spec §6), so they are taken here as given rational parameters.
Missing from src: the Rate Evaluator of `SurfaceReactor`/`SimpleReactor`. -/
def rateOf (rxns : List SpecReaction) (kf kr : List ℚ) (y : List ℚ) (m : Nat) : ℚ :=
  kf.getD m 0 * monomial y (rxns.getD m default).reactants
    - kr.getD m 0 * monomial y (rxns.getD m default).products

/-- Modelled from the spec: per-species net production rate computed from a
vector of per-reaction net rates (spec §4.1:
`species-rate[i] = Σ_j stoich(j,i) × reactionRate[j]`).
Missing from src: the Rate Evaluator of `SurfaceReactor`. -/
def speciesRateFrom (rxns : List SpecReaction) (rates : List ℚ) (i : Nat) : ℚ :=
  ∑ m ∈ Finset.range rxns.length, (stoich (rxns.getD m default) i : ℚ) * rates.getD m 0

/-- Modelled from the spec: the per-species net production rate evaluated at a
state `y` (spec §4.1), composing `speciesRateFrom` with the mass-action rates.
Missing from src: the Rate Evaluator of `SurfaceReactor`/`SimpleReactor`. -/
def speciesRateAt (rxns : List SpecReaction) (kf kr : List ℚ) (y : List ℚ) (i : Nat) : ℚ :=
  ∑ m ∈ Finset.range rxns.length, (stoich (rxns.getD m default) i : ℚ) * rateOf rxns kf kr y m

/-- The dissociative-adsorption reaction of the test, `H2 + 2X ⇌ 2HX`
(surfaceTest.py lines 51–56), with core-species indices `H2 = 0`, `X = 1`,
`HX = 2` (line 58: `coreSpecies = [H2, X, HX]`). -/
def rxn1 : SpecReaction :=
  { reactants := [0, 1, 1], products := [2, 2] }

/-- The perturbation factor `1 + 1e-3` used by the sensitivity-validation loop
(surfaceTest.py lines 320–321 and 344–345). -/
def perturbFactor : ℚ :=
  1 + 1 / 1000

/-- The pre-exponential factor after one perturb-then-reset round trip of the
sensitivity-validation loop: multiplied by `(1 + 1e-3)` at the top of the
iteration (surfaceTest.py lines 320–321) and divided by `(1 + 1e-3)` at the
bottom (lines 344–345). -/
def perturbThenReset (a : ℚ) : ℚ :=
  a * perturbFactor / perturbFactor

/-- The Python `range(a, b)` sequence of integers (`a, a+1, …, b−1`). -/
def pyRange (a b : ℤ) : List ℤ :=
  (List.range (b - a).toNat).map fun n => a + n

/-- The target times of the test in tenths of their base-10 exponent:
`tlist = [10 ** (i / 10.0) for i in range(-130, -49)]`
(surfaceTest.py lines 76–77), so each sampled time is `10^(i/10)` s for `i`
in this list, and each entry of `tlist` is passed to `advance` in turn
(lines 84–85).  Since `i ↦ 10^(i/10)` is injective, facts about the times are
stated via the integers `i`: time `10^-13` s is `i = -130`, time `10^-5.1` s
is `i = -51`, time `10^-5.0` s is `i = -50`. -/
def tlistExponentTenths : List ℤ :=
  pyRange (-130) (-49)

/-- Modelled from the spec: the Sensitivity Module (§4.4):
`computeRateDerivative() → D` with `D[i][j] = ∂(speciesRate[i])/∂k[j]`,
which for mass-action kinetics reduces to
`stoich(j,i) × Π(concentration/coverage terms for reaction j)`.
Missing from src: `SimpleReactor.computeRateDerivative`. -/
def computeRateDerivative (rxns : List SpecReaction) (y : List ℚ) (i j : Nat) : ℚ :=
  (stoich (rxns.getD j default) i : ℚ) * monomial y (rxns.getD j default).reactants

/-- The forward rate-coefficient vector after the sensitivity-validation loop
multiplies reaction `j`'s pre-exponential factor by `(1 + 1e-3)`
(surfaceTest.py lines 320–321); the rate coefficient is linear in the
pre-exponential factor, so it is scaled by the same factor. -/
def perturbedKf (kf : List ℚ) (j : Nat) : List ℚ :=
  kf.set j (kf.getD j 0 * perturbFactor)

/-- The finite-difference sensitivity quotient of the validation loop
(surfaceTest.py lines 318–345): the change in the residual's rate term under
the perturbation of reaction `j`'s rate coefficient, evaluated at the same
state `y`, divided by the rate-coefficient change `dk = kf[j] × 1e-3`
(line 322: `dk = rxnList[i].getRateCoefficient(T, P) - k0`). -/
def sensitivityFD (rxns : List SpecReaction) (kf kr y : List ℚ) (i j : Nat) : ℚ :=
  (speciesRateAt rxns (perturbedKf kf j) kr y i - speciesRateAt rxns kf kr y i)
    / (kf.getD j 0 * (1 / 1000))

/-- Modelled from the spec: the Residual Function (§4.2):
`residual(t, y, dydt) → (F, flag)` with
`F[i] = dydt[i] − speciesRate[i] × (volume or site-area normalization)[i]`.
The flag signals evaluation success/failure (e.g. non-finite values) to the
caller; in this exact-arithmetic model every evaluation yields finite values,
so the success check always passes.  Missing from src:
`SurfaceReactor.residual`. -/
def residualFn (rxns : List SpecReaction) (kf kr norm : List ℚ) (_t : ℚ)
    (y dydt : List ℚ) : List ℚ × Bool :=
  (((List.range y.length).map fun i =>
      dydt.getD i 0 - speciesRateAt rxns kf kr y i * norm.getD i 1), true)

/-- The species/reaction index built at `initializeModel` (spec §3): the
number of core species and the core reactions in their stable order; edge
species and reactions are not integrated. -/
structure ReactorIndex where
  numCoreSpecies : Nat
  coreReactions : List SpecReaction
deriving DecidableEq

/-- The fixed reactor conditions (surfaceTest.py lines 63–71, spec §3):
temperature, initial pressure, initial gas mole fractions, initial surface
coverages, surface-to-volume ratio and surface site density, immutable for
the lifetime of one reactor instance. -/
structure ReactorConditions where
  T : ℚ
  initialP : ℚ
  initialGasMoleFractions : List (Nat × ℚ)
  initialSurfaceCoverages : List (Nat × ℚ)
  surfaceVolumeRatio : ℚ
  surfaceSiteDensity : ℚ
deriving DecidableEq

/-- Modelled from the spec: the Reactor Driver's state (spec §3 Lifecycle,
§4.5): the index and the conditions are created at `initializeModel` and are
immutable afterwards; the trajectory state `y`, `t` and the cached
`coreReactionRates` / `coreSpeciesRates` are overwritten by every `advance`.
The rate-coefficient vectors are fixed by the isothermal conditions.
Missing from src: the `SurfaceReactor` attributes. -/
structure Reactor where
  index : ReactorIndex
  conditions : ReactorConditions
  kf : List ℚ
  kr : List ℚ
  t : ℚ
  y : List ℚ
  coreReactionRates : List ℚ
  coreSpeciesRates : List ℚ
deriving DecidableEq

/-- Modelled from the spec: `advance(targetTime)` (spec §4.5) drives the
external stepper until its internal time reaches `targetTime`, overwriting
the state vector `y`, setting `t`, and caching the freshly evaluated
`coreReactionRates` and `coreSpeciesRates`; nothing else is touched.  The
black-box stiff stepper (out of scope, spec §6) is the parameter `step`,
giving the new state vector from the target time and the current time and
state.  Missing from src: `SurfaceReactor.advance`. -/
def advance (step : ℚ → ℚ → List ℚ → List ℚ) (r : Reactor)
    (targetTime : ℚ) : Reactor :=
  let ynew := step targetTime r.t r.y
  { r with
    t := targetTime
    y := ynew
    coreReactionRates := (List.range r.index.coreReactions.length).map fun m =>
      rateOf r.index.coreReactions r.kf r.kr ynew m
    coreSpeciesRates := (List.range r.index.numCoreSpecies).map fun i =>
      speciesRateAt r.index.coreReactions r.kf r.kr ynew i }

/-- The sampling loop of the test (surfaceTest.py lines 84–91): for each
target time in turn, call `advance` and record copies of `t`, `y`,
`coreReactionRates` and `coreSpeciesRates`. -/
def runTrajectory (step : ℚ → ℚ → List ℚ → List ℚ) :
    Reactor → List ℚ → List (ℚ × List ℚ × List ℚ × List ℚ)
  | _, [] => []
  | r, targetTime :: rest =>
    let r2 := advance step r targetTime
    (r2.t, r2.y, r2.coreReactionRates, r2.coreSpeciesRates)
      :: runTrajectory step r2 rest

/-- A reactor with the conditions of the test (surfaceTest.py lines 63–71)
and the `H2 + 2X ⇌ 2HX` model, in its freshly initialized state, used to
instantiate the determinism theorem at a concrete input. -/
def sampleReactor : Reactor :=
  { index := { numCoreSpecies := 3, coreReactions := [rxn1] }
    conditions :=
      { T := 1000
        initialP := 100000
        initialGasMoleFractions := [(0, 1)]
        initialSurfaceCoverages := [(1, 1)]
        surfaceVolumeRatio := 10
        surfaceSiteDensity := 272 / 10000000000000 }
    kf := [1]
    kr := [1]
    t := 0
    y := [1, 1, 0]
    coreReactionRates := []
    coreSpeciesRates := [] }

/-- A top-level Python statement of a test body, abstracted to its source
line number and to whether it completes normally (`ok = true`) or raises an
exception (`ok = false`); a loop or other compound statement is one entry.
An unconditional `return` statement is the separate constructor `ret`. -/
inductive PyStmt where
  | stmt (line : Nat) (ok : Bool)
  | ret (line : Nat)
deriving DecidableEq

/-- How the execution of a statement sequence ends: with a `return` at a
given line, with an exception raised at a given line, or by falling off the
end of the sequence. -/
inductive ExecEnd where
  | returned (line : Nat)
  | raised (line : Nat)
  | fellOff
deriving DecidableEq

/-- Sequential execution of a statement list: the source lines executed, in
order, and how the execution ends.  A raising statement aborts the rest of
the sequence; a `return` ends it normally. -/
def execBody : List PyStmt → List Nat × ExecEnd
  | [] => ([], ExecEnd.fellOff)
  | PyStmt.ret l :: _ => ([l], ExecEnd.returned l)
  | PyStmt.stmt l true :: rest => ((execBody rest).1.cons l, (execBody rest).2)
  | PyStmt.stmt l false :: _ => ([l], ExecEnd.raised l)

/-- The start lines of the top-level statements of `testSolve` before the
unconditional `return` on line 130 (surfaceTest.py lines 28–127): the species
and reaction constructions, reactor setup, `initializeModel`, `tlist`, the
sampling loop (lines 84–91 as one compound statement), the array
conversions, the species-flux assertion loop (lines 101–107), the
equilibrium assertion (line 110) and the plotting statements. -/
def preReturnLines : List Nat :=
  [28, 36, 43, 51, 58, 59, 60, 61, 63, 64, 65, 73, 76, 80, 81, 82, 83, 84,
    94, 95, 96, 97, 98, 101, 110, 114, 115, 116, 117, 118, 119, 120, 121,
    122, 123, 124, 125, 127]

/-- The start lines of the top-level statements of `testSolve` after the
unconditional `return` on line 130 (surfaceTest.py lines 136–350): the
finite-difference Jacobian comparison (loop at line 220) and the
`computeRateDerivative` sensitivity comparison (loop at line 318, assertion
loop at line 347). -/
def postReturnLines : List Nat :=
  [136, 145, 146, 152, 160, 167, 175, 182, 190, 197, 205, 212, 220, 267,
    268, 274, 281, 289, 290, 291, 293, 302, 304, 306, 310, 311, 312, 314,
    316, 318, 347]

/-- The body of `testSolve` as a statement sequence: the statements before
line 130 (each of which may raise, e.g. a failing assertion, according to
`ok`), the unconditional `return` on line 130, and the statements after it. -/
def testSolveBody (ok : Nat → Bool) : List PyStmt :=
  (preReturnLines.map fun l => PyStmt.stmt l (ok l))
    ++ PyStmt.ret 130 :: (postReturnLines.map fun l => PyStmt.stmt l (ok l))

/-- The partial derivative of the mass-action `monomial` with respect to
state entry `k`: by the product rule, the sum over the occurrences of species
`k` in the index list of the product of the remaining factors (spec §4.3:
"`∂rate[i]/∂y[k]` follows the product rule over the power-law
concentration/coverage dependence"). -/
def dMonomial (y : List ℚ) (idxs : List Nat) (k : Nat) : ℚ :=
  ∑ p ∈ Finset.range idxs.length,
    if idxs.getD p 0 = k then monomial y (idxs.eraseIdx p) else 0

/-- Modelled from the spec: the analytic Jacobian (§4.3):
`J[i][k] = ∂F[i]/∂y[k] + coefficient × ∂F[i]/∂(dydt[k])` with
`F[i] = dydt[i] − speciesRate[i]`, so the `dydt` term contributes the
integrator-supplied coefficient `c` on the diagonal and the state term is
minus the derivative of the net species production rate, accumulated per
reaction by the product rule.  Missing from src: `SimpleReactor.jacobian`. -/
def jacobianEntry (rxns : List SpecReaction) (kf kr y : List ℚ) (c : ℚ)
    (i k : Nat) : ℚ :=
  (if i = k then c else 0)
    - ∑ m ∈ Finset.range rxns.length, (stoich (rxns.getD m default) i : ℚ)
        * (kf.getD m 0 * dMonomial y (rxns.getD m default).reactants k
          - kr.getD m 0 * dMonomial y (rxns.getD m default).products k)

/-- The finite-difference perturbation size of the Jacobian check,
`dN = .000001 * sum(rxnSystem0.y)` (surfaceTest.py line 239). -/
def deltaN (y : List ℚ) : ℚ :=
  1 / 1000000 * y.sum

/-- The state with entry `k` perturbed by `d` (surfaceTest.py line 244:
`rxnSystem0.y[i] += dN`). -/
def perturbY (y : List ℚ) (k : Nat) (d : ℚ) : List ℚ :=
  y.set k (y.getD k 0 + d)

/-- The residual value at `dydt = 0` used by the finite-difference Jacobian
check (surfaceTest.py lines 236–237: `residual(0.0, y, zeros)[0]`), which
for `F[i] = dydt[i] − speciesRate[i]` is `−speciesRate[i]`. -/
def residualAtZero (rxns : List SpecReaction) (kf kr y : List ℚ)
    (i : Nat) : ℚ :=
  -speciesRateAt rxns kf kr y i

/-- The finite-difference Jacobian entry of the validation loop
(surfaceTest.py lines 239–255): `(F_i(y + dN·e_k) − F_i(y)) / dN` with
`dN = 1e-6 × Σy`. -/
def fdJacobianEntry (rxns : List SpecReaction) (kf kr y : List ℚ)
    (i k : Nat) : ℚ :=
  (residualAtZero rxns kf kr (perturbY y k (deltaN y)) i
    - residualAtZero rxns kf kr y i) / deltaN y

/-- The methyl-recombination reaction `CH3 + CH3 → C2H6` of the Jacobian
validation loop (surfaceTest.py lines 152–158), with core-species indices
`CH4 = 0`, `CH3 = 1`, `C2H6 = 2`, `C2H5 = 3`, `H2 = 4`
(line 221: `coreSpecies = [CH4, CH3, C2H6, C2H5, H2]`). -/
def rxnJac : SpecReaction :=
  { reactants := [1, 1], products := [2] }

/-- C10: In each iteration of the sensitivity-validation loop, the reaction's
pre-exponential factor is multiplied by `(1 + 1e-3)` and finally divided by
`(1 + 1e-3)`, so under exact arithmetic the perturb-then-reset is a round-trip
identity. -/
theorem perturbThenReset_id (a : ℚ) : perturbThenReset a = a := by
  have h : perturbFactor ≠ 0 := by norm_num [perturbFactor]
  rw [perturbThenReset, mul_div_assoc, div_self h, mul_one]

/-- C5 counterexample: the final sampled time of the test is `10^-5.0` s, not
`10^-5.1` s — `range(-130, -49)` ends at `i = -50`, so the last exponent is
`-50/10 = -5`, which differs from `-5.1`. -/
theorem tlist_final_exponent_counterexample :
    tlistExponentTenths.getLast? = some (-50) ∧
    tlistExponentTenths.getLast? ≠ some (-51) := by
  constructor
  · decide
  · decide

/-- C5 (amended): the sequence of target-time exponent-tenths passed to
`advance` runs from `-130` (t = 10^-13 s) up to and including `-50`
(t = 10^-5.0 s), in 81 unit steps (i.e. steps of `0.1` in the exponent). -/
theorem tlist_exponents_spec :
    tlistExponentTenths.head? = some (-130) ∧
    tlistExponentTenths.getLast? = some (-50) ∧
    tlistExponentTenths.length = 81 ∧
    ((tlistExponentTenths.zip (tlistExponentTenths.drop 1)).all
      fun p => p.2 = p.1 + 1) = true := by
  refine ⟨by decide, by decide, by decide, by decide⟩

/-- C1: for the model reaction `H2 + 2X ⇌ 2HX` (stoichiometry `-1, -2, +2`
for `H2, X, HX`), at any sampled time with net reaction rate `r`, the
reaction rate equals minus the H2 production rate, minus one half the X
production rate, and one half the HX production rate — exactly, hence within
the `1e-6` relative tolerance of the test. -/
theorem speciesFlux_consistency (r : ℚ) :
    |r - (-1) * speciesRateFrom [rxn1] [r] 0| ≤ 1 / 1000000 * |r| ∧
    |r - (-(1 / 2)) * speciesRateFrom [rxn1] [r] 1| ≤ 1 / 1000000 * |r| ∧
    |r - (1 / 2) * speciesRateFrom [rxn1] [r] 2| ≤ 1 / 1000000 * |r| := by
  have h0 : speciesRateFrom [rxn1] [r] 0 = -1 * r := by
    simp [speciesRateFrom, stoich, rxn1]
  have h1 : speciesRateFrom [rxn1] [r] 1 = -2 * r := by
    simp [speciesRateFrom, stoich, rxn1]
  have h2 : speciesRateFrom [rxn1] [r] 2 = 2 * r := by
    simp [speciesRateFrom, stoich, rxn1]
  refine ⟨?_, ?_, ?_⟩
  · have hz : r - (-1) * (-1 * r) = 0 := by ring
    rw [h0, hz, abs_zero]
    positivity
  · have hz : r - (-(1 / 2)) * (-2 * r) = 0 := by ring
    rw [h1, hz, abs_zero]
    positivity
  · have hz : r - 1 / 2 * (2 * r) = 0 := by ring
    rw [h2, hz, abs_zero]
    positivity

theorem getD_perturbedKf_self (kf : List ℚ) (j : Nat) (hk : j < kf.length) :
    (perturbedKf kf j).getD j 0 = kf.getD j 0 * perturbFactor := by
  unfold perturbedKf
  rw [List.getD_eq_getElem?_getD, List.getElem?_set_eq_of_lt _ hk]
  rfl

theorem getD_perturbedKf_ne (kf : List ℚ) (j m : Nat) (hne : m ≠ j) :
    (perturbedKf kf j).getD m 0 = kf.getD m 0 := by
  unfold perturbedKf
  rw [List.getD_eq_getElem?_getD, List.getElem?_set_ne (by omega),
    ← List.getD_eq_getElem?_getD]

theorem speciesRateAt_perturb_sub (rxns : List SpecReaction) (kf kr y : List ℚ)
    (i j : Nat) (hj : j < rxns.length) (hk : j < kf.length) :
    speciesRateAt rxns (perturbedKf kf j) kr y i - speciesRateAt rxns kf kr y i
      = (stoich (rxns.getD j default) i : ℚ) * (kf.getD j 0 * (1 / 1000))
          * monomial y (rxns.getD j default).reactants := by
  unfold speciesRateAt
  rw [← Finset.sum_sub_distrib]
  rw [Finset.sum_eq_single_of_mem j (Finset.mem_range.mpr hj)]
  · rw [← mul_sub]
    unfold rateOf
    rw [getD_perturbedKf_self kf j hk]
    rw [show kf.getD j 0 * perturbFactor * monomial y (rxns.getD j default).reactants
          - kr.getD j 0 * monomial y (rxns.getD j default).products
          - (kf.getD j 0 * monomial y (rxns.getD j default).reactants
            - kr.getD j 0 * monomial y (rxns.getD j default).products)
        = kf.getD j 0 * (1 / 1000) * monomial y (rxns.getD j default).reactants by
      rw [perturbFactor]; ring]
    ring
  · intro m _ hne
    unfold rateOf
    rw [getD_perturbedKf_ne kf j m hne]
    ring

/-- C3: for every core species `i` and core reaction `j`, the sensitivity
matrix satisfies `D[i][j] = stoich(j,i) × (concentration/coverage product of
reaction j)`, and the finite-difference quotient obtained by scaling reaction
`j`'s pre-exponential rate coefficient by `(1 + 1e-3)` and re-evaluating the
residual's rate term equals `D[i][j]` exactly (the rate is linear in the
coefficient), hence matches it within the `1e-3` relative tolerance. -/
theorem computeRateDerivative_spec (rxns : List SpecReaction) (kf kr y : List ℚ)
    (i j : Nat) (hj : j < rxns.length) (hk : j < kf.length)
    (hkf : kf.getD j 0 ≠ 0) :
    computeRateDerivative rxns y i j
        = (stoich (rxns.getD j default) i : ℚ)
            * monomial y (rxns.getD j default).reactants ∧
    sensitivityFD rxns kf kr y i j = computeRateDerivative rxns y i j ∧
    |sensitivityFD rxns kf kr y i j - computeRateDerivative rxns y i j|
        ≤ 1 / 1000 * |sensitivityFD rxns kf kr y i j| := by
  have hdk : kf.getD j 0 * (1 / 1000) ≠ 0 := by
    exact mul_ne_zero hkf (by norm_num)
  have hfd : sensitivityFD rxns kf kr y i j = computeRateDerivative rxns y i j := by
    unfold sensitivityFD computeRateDerivative
    rw [speciesRateAt_perturb_sub rxns kf kr y i j hj hk]
    rw [div_eq_iff hdk]
    ring
  refine ⟨rfl, hfd, ?_⟩
  rw [hfd, sub_self, abs_zero]
  positivity

/-- C3 witness: the theorem applied to the concrete one-reaction system
`A → 2B` with `kf = [2]`, `y = [3, 5]`, at species `i = 1`, reaction `j = 0`. -/
theorem computeRateDerivative_spec_witness :
    (0 : Nat) < 1 ∧ (0 : Nat) < 1 ∧ ([(2 : ℚ)].getD 0 0 ≠ 0) ∧
    (sensitivityFD [⟨[0], [1, 1]⟩] [2] [0] [3, 5] 1 0
      = computeRateDerivative [⟨[0], [1, 1]⟩] [3, 5] 1 0) := by
  refine ⟨by norm_num, by norm_num, by norm_num, ?_⟩
  exact (computeRateDerivative_spec [⟨[0], [1, 1]⟩] [2] [0] [3, 5] 1 0
    (by norm_num) (by norm_num) (by norm_num)).2.1

/-- C7: for every time `t`, state vector `y` and derivative vector `dydt`,
`residual(t, y, dydt)` returns a pair whose first component is a vector of
the same length as `y` and whose second component is the success/failure
flag (always success here, since exact arithmetic never produces non-finite
values). -/
theorem residual_shape (rxns : List SpecReaction) (kf kr norm : List ℚ)
    (t : ℚ) (y dydt : List ℚ) :
    (residualFn rxns kf kr norm t y dydt).1.length = y.length ∧
    (residualFn rxns kf kr norm t y dydt).2 = true := by
  constructor
  · simp [residualFn]
  · rfl

/-- C6: every `advance(targetTime)` call updates exactly the reactor's
mutable trajectory state — the state vector `y` (replaced by the stepper's
output, so a caller retaining history must copy it), the current time `t`
(set to the target time) and the cached `coreReactionRates` /
`coreSpeciesRates` (re-evaluated at the new state) — and leaves the index,
the reactor conditions and the rate-coefficient configuration unchanged. -/
theorem advance_frame (step : ℚ → ℚ → List ℚ → List ℚ) (r : Reactor)
    (targetTime : ℚ) :
    (advance step r targetTime).index = r.index ∧
    (advance step r targetTime).conditions = r.conditions ∧
    (advance step r targetTime).kf = r.kf ∧
    (advance step r targetTime).kr = r.kr ∧
    (advance step r targetTime).t = targetTime ∧
    (advance step r targetTime).y = step targetTime r.t r.y ∧
    (advance step r targetTime).coreReactionRates
      = ((List.range r.index.coreReactions.length).map fun m =>
          rateOf r.index.coreReactions r.kf r.kr (step targetTime r.t r.y) m) ∧
    (advance step r targetTime).coreSpeciesRates
      = ((List.range r.index.numCoreSpecies).map fun i =>
          speciesRateAt r.index.coreReactions r.kf r.kr (step targetTime r.t r.y) i) :=
  ⟨rfl, rfl, rfl, rfl, rfl, rfl, rfl, rfl⟩

/-- C8: two runs that perform identical `advance` call sequences on reactors
constructed from the same conditions (hence with equal initial states)
produce identical trajectories, and the rate evaluation is a pure,
deterministic function of its inputs: equal states yield equal reaction and
species rates. -/
theorem runTrajectory_deterministic (step : ℚ → ℚ → List ℚ → List ℚ)
    (r1 r2 : Reactor) (ts1 ts2 : List ℚ) (hr : r1 = r2) (hts : ts1 = ts2) :
    runTrajectory step r1 ts1 = runTrajectory step r2 ts2 ∧
    (∀ (rxns : List SpecReaction) (kf kr y1 y2 : List ℚ), y1 = y2 →
      ∀ m, rateOf rxns kf kr y1 m = rateOf rxns kf kr y2 m ∧
        speciesRateAt rxns kf kr y1 m = speciesRateAt rxns kf kr y2 m) := by
  subst hr
  subst hts
  exact ⟨rfl, fun rxns kf kr y1 y2 hy m => by subst hy; exact ⟨rfl, rfl⟩⟩

/-- C8 witness: the determinism theorem applied to two copies of the sample
reactor and two copies of the same one-element target-time list. -/
theorem runTrajectory_deterministic_witness :
    runTrajectory (fun _ _ y => y) sampleReactor [1]
        = runTrajectory (fun _ _ y => y) sampleReactor [1] ∧
    (∀ (rxns : List SpecReaction) (kf kr y1 y2 : List ℚ), y1 = y2 →
      ∀ m, rateOf rxns kf kr y1 m = rateOf rxns kf kr y2 m ∧
        speciesRateAt rxns kf kr y1 m = speciesRateAt rxns kf kr y2 m) :=
  runTrajectory_deterministic (fun _ _ y => y) sampleReactor sampleReactor
    [1] [1] rfl rfl

theorem execBody_stops_at_ret (pre : List PyStmt) (rl : Nat)
    (post : List PyStmt)
    (hpre : ∀ s ∈ pre, ∃ l ok, s = PyStmt.stmt l ok ∧ l ≤ rl) :
    (∀ l ∈ (execBody (pre ++ PyStmt.ret rl :: post)).1, l ≤ rl) ∧
    ((execBody (pre ++ PyStmt.ret rl :: post)).2 = ExecEnd.returned rl ∨
      ∃ l, l ≤ rl ∧ (execBody (pre ++ PyStmt.ret rl :: post)).2
        = ExecEnd.raised l) := by
  induction pre with
  | nil =>
    constructor
    · intro l hl
      simp only [List.nil_append, execBody, List.mem_singleton] at hl
      omega
    · left
      rfl
  | cons s pre ih =>
    obtain ⟨l, ok, hs, hl⟩ := hpre s (List.mem_cons_self s pre)
    subst hs
    have ih2 := ih fun s hs => hpre s (List.mem_cons_of_mem _ hs)
    cases ok with
    | true =>
      constructor
      · intro l2 hl2
        simp only [List.cons_append, execBody, List.cons, List.mem_cons] at hl2
        rcases hl2 with h | h
        · omega
        · exact ih2.1 l2 h
      · exact ih2.2
    | false =>
      constructor
      · intro l2 hl2
        simp only [List.cons_append, execBody, List.mem_singleton] at hl2
        omega
      · right
        exact ⟨l, hl, rfl⟩

/-- C9: for every assignment of outcomes to the statements of `testSolve`,
execution only ever reaches lines at or before the unconditional `return` on
line 130; a normally returning execution returns exactly at line 130, and the
only other possibility is an exception at or before line 130 (e.g. a failing
assertion), so no statement after line 130 — in particular the
finite-difference Jacobian comparison and the `computeRateDerivative`
sensitivity comparison — is ever reached. -/
theorem testSolve_returns_at_130 (ok : Nat → Bool) :
    (∀ l ∈ (execBody (testSolveBody ok)).1, l ≤ 130) ∧
    ((execBody (testSolveBody ok)).2 = ExecEnd.returned 130 ∨
      ∃ l, l ≤ 130 ∧ (execBody (testSolveBody ok)).2 = ExecEnd.raised l) ∧
    (∀ l ∈ postReturnLines, l ∉ (execBody (testSolveBody ok)).1) := by
  have key := execBody_stops_at_ret
    (preReturnLines.map fun l => PyStmt.stmt l (ok l)) 130
    (postReturnLines.map fun l => PyStmt.stmt l (ok l)) ?_
  · refine ⟨?_, ?_, ?_⟩
    · exact key.1
    · exact key.2
    · intro l hl hmem
      have h1 : l ≤ 130 := key.1 l hmem
      have h2 : 130 < l := by
        revert hl
        have : ∀ l ∈ postReturnLines, 130 < l := by decide
        exact this l
      omega
  · intro s hs
    simp only [List.mem_map] at hs
    obtain ⟨l, hl, rfl⟩ := hs
    refine ⟨l, ok l, rfl, ?_⟩
    revert hl
    have : ∀ l ∈ preReturnLines, l ≤ 130 := by decide
    exact this l

/-- C9 witness: the reachability theorem applied to the execution in which
every statement succeeds. -/
theorem testSolve_returns_at_130_witness :
    (∀ l ∈ (execBody (testSolveBody fun _ => true)).1, l ≤ 130) ∧
    ((execBody (testSolveBody fun _ => true)).2 = ExecEnd.returned 130 ∨
      ∃ l, l ≤ 130 ∧ (execBody (testSolveBody fun _ => true)).2
        = ExecEnd.raised l) ∧
    (∀ l ∈ postReturnLines, l ∉ (execBody (testSolveBody fun _ => true)).1) :=
  testSolve_returns_at_130 fun _ => true

theorem residualAtZero_rxnJac (kc : ℚ) (y : List ℚ) (i : Nat) :
    residualAtZero [rxnJac] [kc] [0] y i
      = -((stoich rxnJac i : ℚ) * kc * (y.getD 1 0 * y.getD 1 0)) := by
  simp [residualAtZero, speciesRateAt, rateOf, monomial, rxnJac,
    Finset.sum_range_one]
  ring

theorem dMonomial_rxnJac_reactants (y : List ℚ) (k : Nat) :
    dMonomial y [1, 1] k = if 1 = k then 2 * y.getD 1 0 else 0 := by
  have h2 : Finset.range ([1, 1] : List Nat).length = {0, 1} := by decide
  simp only [dMonomial, h2]
  rw [Finset.sum_insert (by decide), Finset.sum_singleton]
  by_cases hk : 1 = k
  · simp [← hk, monomial, List.eraseIdx]
    ring
  · simp [monomial, List.eraseIdx, hk]

theorem jacobianEntry_rxnJac (kc : ℚ) (y : List ℚ) (i k : Nat) :
    jacobianEntry [rxnJac] [kc] [0] y 0 i k
      = -((stoich rxnJac i : ℚ) * kc
          * (if 1 = k then 2 * y.getD 1 0 else 0)) := by
  have hlen : ([rxnJac] : List SpecReaction).length = 1 := rfl
  have hr : (([rxnJac] : List SpecReaction).getD 0 default) = rxnJac := rfl
  simp only [jacobianEntry, hlen, Finset.sum_range_one, hr]
  rw [show rxnJac.reactants = [1, 1] from rfl,
    show rxnJac.products = [2] from rfl, dMonomial_rxnJac_reactants]
  by_cases h : 1 = k
  · simp [h, List.getElem?_cons_zero, Option.getD_some]
    ring
  · simp [h, List.getElem?_cons_zero, Option.getD_some]

/-- C2 counterexample: at the valid state `y = [0, 1/1000, 0, 0, 999/1000]`
of the modelled system `CH3 + CH3 → C2H6` with rate coefficient `1`, the
forward finite-difference quotient in the CH3 column (`δ = 1e-6 × Σy`)
differs from the analytic Jacobian entry by more than `1e-4` relative — the
claim fails for states in which the doubly-consumed species is scarce. -/
theorem jacobian_fd_counterexample :
    1 / 10000 * |fdJacobianEntry [rxnJac] [1] [0]
        [0, 1 / 1000, 0, 0, 999 / 1000] 1 1|
      < |fdJacobianEntry [rxnJac] [1] [0] [0, 1 / 1000, 0, 0, 999 / 1000] 1 1
          - jacobianEntry [rxnJac] [1] [0] [0, 1 / 1000, 0, 0, 999 / 1000] 0 1 1| ∧
    1 / 10000 * |jacobianEntry [rxnJac] [1] [0]
        [0, 1 / 1000, 0, 0, 999 / 1000] 0 1 1|
      < |fdJacobianEntry [rxnJac] [1] [0] [0, 1 / 1000, 0, 0, 999 / 1000] 1 1
          - jacobianEntry [rxnJac] [1] [0] [0, 1 / 1000, 0, 0, 999 / 1000] 0 1 1| := by
  have hδ : deltaN [0, 1 / 1000, 0, 0, 999 / 1000] = 1 / 1000000 := by
    simp [deltaN]
    norm_num
  have hp : perturbY [0, 1 / 1000, 0, 0, 999 / 1000] 1
      (deltaN [0, 1 / 1000, 0, 0, 999 / 1000])
      = [0, 1001 / 1000000, 0, 0, 999 / 1000] := by
    rw [hδ]
    simp [perturbY]
    norm_num
  have hfd : fdJacobianEntry [rxnJac] [1] [0]
      [0, 1 / 1000, 0, 0, 999 / 1000] 1 1 = 2001 / 500000 := by
    rw [fdJacobianEntry, hp, hδ, residualAtZero_rxnJac, residualAtZero_rxnJac]
    norm_num [stoich, rxnJac]
  have hj : jacobianEntry [rxnJac] [1] [0]
      [0, 1 / 1000, 0, 0, 999 / 1000] 0 1 1 = 1 / 250 := by
    rw [jacobianEntry_rxnJac]
    norm_num [stoich, rxnJac]
  rw [hfd, hj]
  have h1 : |(2001 : ℚ) / 500000 - 1 / 250| = 1 / 500000 := by
    rw [show (2001 : ℚ) / 500000 - 1 / 250 = 1 / 500000 by norm_num]
    exact abs_of_pos (by norm_num)
  have h2 : |(2001 : ℚ) / 500000| = 2001 / 500000 := abs_of_pos (by norm_num)
  have h3 : |(1 : ℚ) / 250| = 1 / 250 := abs_of_pos (by norm_num)
  rw [h1, h2, h3]
  norm_num

/-- C2 (amended): for the modelled one-reaction system `CH3 + CH3 → C2H6`
with positive rate coefficient, for every state `y = [a, b, c, d, e]` whose
total is positive and in which the amount `b` of the doubly-consumed species
CH3 is at least one percent of `Σy`, and for every row `i` and perturbation
column `k`, the forward finite-difference quotient with `δ = 1e-6 × Σy`
agrees with the analytic Jacobian entry of `jacobian(t, y, dydt, 0.0)` within
a relative tolerance of `1e-4`. -/
theorem jacobian_fd_spec (kc a b c d e : ℚ) (hkc : 0 < kc)
    (hs : 0 < a + b + c + d + e)
    (hb : (a + b + c + d + e) / 100 ≤ b) :
    ∀ i k : Nat,
      |fdJacobianEntry [rxnJac] [kc] [0] [a, b, c, d, e] i k
          - jacobianEntry [rxnJac] [kc] [0] [a, b, c, d, e] 0 i k|
        ≤ 1 / 10000
            * |fdJacobianEntry [rxnJac] [kc] [0] [a, b, c, d, e] i k| := by
  intro i k
  have hδval : deltaN [a, b, c, d, e]
      = 1 / 1000000 * (a + b + c + d + e) := by
    simp [deltaN]
    ring
  have hδpos : 0 < deltaN [a, b, c, d, e] := by
    rw [hδval]
    exact mul_pos (by norm_num) hs
  set δ := deltaN [a, b, c, d, e] with hδdef
  set S := (stoich rxnJac i : ℚ) with hS
  have hy1 : ([a, b, c, d, e] : List ℚ).getD 1 0 = b := rfl
  by_cases hk : k = 1
  · subst hk
    have hy1' : (perturbY [a, b, c, d, e] 1 δ).getD 1 0 = b + δ := by
      simp [perturbY]
    rw [fdJacobianEntry, residualAtZero_rxnJac, residualAtZero_rxnJac,
      jacobianEntry_rxnJac, hy1', hy1, if_pos rfl, ← hδdef, ← hS]
    have hquot : (-(S * kc * ((b + δ) * (b + δ))) - -(S * kc * (b * b))) / δ
        = -(S * kc * (2 * b + δ)) := by
      field_simp
      ring
    rw [hquot]
    have hdiff : -(S * kc * (2 * b + δ)) - -(S * kc * (2 * b))
        = -(S * kc * δ) := by
      ring
    rw [hdiff, abs_neg, abs_neg, abs_mul, abs_mul, abs_mul, abs_mul]
    have habskc : |kc| = kc := abs_of_pos hkc
    have hbpos : 0 < b :=
      lt_of_lt_of_le (div_pos hs (by norm_num)) hb
    have habsδ : |δ| = δ := abs_of_pos hδpos
    have habs2b : |2 * b + δ| = 2 * b + δ := by
      rw [abs_of_pos]
      nlinarith
    rw [habskc, habsδ, habs2b]
    have hkey : δ ≤ 1 / 10000 * (2 * b + δ) := by
      rw [hδval] at *
      nlinarith
    nlinarith [abs_nonneg S, mul_le_mul_of_nonneg_left hkey
      (mul_nonneg (abs_nonneg S) hkc.le)]
  · have hy1' : (perturbY [a, b, c, d, e] k δ).getD 1 0
        = ([a, b, c, d, e] : List ℚ).getD 1 0 := by
      rw [perturbY, List.getD_eq_getElem?_getD,
        List.getElem?_set_ne (by omega), ← List.getD_eq_getElem?_getD]
    rw [fdJacobianEntry, residualAtZero_rxnJac, residualAtZero_rxnJac,
      jacobianEntry_rxnJac, hy1',
      if_neg (fun h => hk h.symm), ← hδdef, ← hS]
    simp

/-- C2 witness: the amended theorem applied to the state
`y = [1/5, 1/5, 1/5, 1/5, 1/5]` with rate coefficient `1`. -/
theorem jacobian_fd_spec_witness :
    (0 : ℚ) < 1 ∧
    (0 : ℚ) < 1 / 5 + 1 / 5 + 1 / 5 + 1 / 5 + 1 / 5 ∧
    ((1 / 5 + 1 / 5 + 1 / 5 + 1 / 5 + 1 / 5 : ℚ)) / 100 ≤ 1 / 5 ∧
    (∀ i k : Nat,
      |fdJacobianEntry [rxnJac] [1] [0] [1 / 5, 1 / 5, 1 / 5, 1 / 5, 1 / 5] i k
          - jacobianEntry [rxnJac] [1] [0]
              [1 / 5, 1 / 5, 1 / 5, 1 / 5, 1 / 5] 0 i k|
        ≤ 1 / 10000 * |fdJacobianEntry [rxnJac] [1] [0]
            [1 / 5, 1 / 5, 1 / 5, 1 / 5, 1 / 5] i k|) :=
  ⟨by norm_num, by norm_num, by norm_num,
    jacobian_fd_spec 1 (1 / 5) (1 / 5) (1 / 5) (1 / 5) (1 / 5)
      (by norm_num) (by norm_num) (by norm_num)⟩
